import Mathlib

/-
  Verification development for the tabularpcn SGF tree loader.

  This file embeds, as executable Lean definitions, the code of:
  - `src/unnamed/part_002` (SGFLexer, StringInputStream),
  - `src/unnamed/part_001` (SGFParser, BaseSGFNode, DummyNode, tree linkage),
  - `src/unnamed/part_000` (BaseTreeNode/TreeNode: addChild, detach),
  - `src/tabularpcn/utils/sgf_tree_loader.hpp` (SGFTreeNode::addProperty,
    SGFTreeLoader::dfsTreeSize, SGFTreeNode::_toSgf / _toSgfString).

  C++ `size_t` is modelled as `Nat` with explicit reduction modulo `2^64`
  wherever arithmetic is performed; `std::numeric_limits<size_t>::max()` is
  the constant `SMAX`.  `assert(...)` is modelled as an `Except.error`
  (an assertion failure aborts the program); exceptions thrown by the
  parser are modelled by the `PErr` error type.
-/

/-- `TreeNode::Type` from `src/unnamed/part_000` (NONE = -1, AND, OR). -/
inductive NType where
  | NONE
  | AND
  | OR
deriving DecidableEq, Repr

/-- The data fields of `SGFTreeNode` (via `TreeNode` / `BaseSGFNode`):
`id_`, `type_`, `tree_size_`, `proof_tree_size_`, `solved_` from
`TreeNode`, plus `match_tt_`, `pruned_by_rzone_`, `properties_` from
`SGFTreeNode`.  Strings are lists of characters. -/
structure NData where
  id_ : Nat := 0
  type_ : NType := .NONE
  tree_size_ : Nat := 0
  proof_tree_size_ : Nat := 0
  solved_ : Bool := false
  match_tt_ : Bool := false
  pruned_by_rzone_ : Bool := false
  properties_ : List (List Char × List (List Char)) := []
deriving DecidableEq, Repr

/-- A materialized SGF tree: one node's data plus the ordered list of its
children (the `child_` / `next_sibling_` chain of the intrusive tree). -/
inductive PTree where
  | node : NData → List PTree → PTree
deriving Repr

def PTree.dataF : PTree → NData
  | .node d _ => d

def PTree.childrenL : PTree → List PTree
  | .node _ cs => cs

def PTree.treeSizeF (t : PTree) : Nat := t.dataF.tree_size_

def PTree.proofF (t : PTree) : Nat := t.dataF.proof_tree_size_

def PTree.solvedF (t : PTree) : Bool := t.dataF.solved_

def PTree.typeF (t : PTree) : NType := t.dataF.type_

mutual

/-- Number of nodes in the subtree rooted at `t`. -/
def PTree.count : PTree → Nat
  | .node _ cs => 1 + PTree.countList cs

def PTree.countList : List PTree → Nat
  | [] => 0
  | c :: rest => PTree.count c + PTree.countList rest

end

mutual

/-- `P` holds at every node of the subtree `t`. -/
def PTree.AllP (P : PTree → Prop) : PTree → Prop
  | .node d cs => P (.node d cs) ∧ PTree.AllPList P cs

def PTree.AllPList (P : PTree → Prop) : List PTree → Prop
  | [] => True
  | c :: rest => PTree.AllP P c ∧ PTree.AllPList P rest

end

/-- `2^64`, the modulus of `size_t` arithmetic. -/
def U64 : Nat := 2 ^ 64

/-- `std::numeric_limits<size_t>::max()`. -/
def SMAX : Nat := U64 - 1

/-- `size_t` addition. -/
def add64 (a b : Nat) : Nat := (a + b) % U64

/-- One iteration of the `for` loop in `SGFTreeLoader::dfsTreeSize`
(lines 200–210): the accumulator is the pair
`(tree_size, proof_tree_size)`, the node's type is `ty`. -/
def annStep (ty : NType) (acc : Nat × Nat) (c : PTree) : Nat × Nat :=
  (add64 acc.1 c.treeSizeF,
    if ty = .AND ∧ c.solvedF then add64 acc.2 c.proofF
    else if ty = .OR ∧ c.solvedF then Nat.min acc.2 c.proofF
    else acc.2)

mutual

/-- `SGFTreeLoader::dfsTreeSize` (sgf_tree_loader.hpp lines 190–219),
as a bottom-up annotation of the tree.  A leaf (`num_children_ == 0`)
gets `tree_size_ = 1` and `proof_tree_size_ = solved_ ? 1 : 0`.  An
internal node accumulates `tree_size` (starting at 1) and
`proof_tree_size` (starting at `0` for AND, `SMAX` for OR) over its
children, then applies the sentinel "hotfix" branch of lines 213–218;
the `assert(node->solved_ == true)` on line 214 is modelled as an
`Except.error`. -/
def annotate : PTree → Except String PTree
  | .node d [] =>
    .ok (.node { d with tree_size_ := 1,
                        proof_tree_size_ := if d.solved_ then 1 else 0 } [])
  | .node d (c :: rest) => do
    let cs' ← annotateList (c :: rest)
    let acc := cs'.foldl (annStep d.type_) (1, if d.type_ = .AND then 0 else SMAX)
    if ¬(d.solved_ = false ∨ acc.2 ≠ SMAX) then
      if d.solved_ = true then
        .ok (.node { d with tree_size_ := acc.1, proof_tree_size_ := 1 } cs')
      else
        .error "assertion failed: node->solved_ == true"
    else
      .ok (.node { d with tree_size_ := acc.1,
                          proof_tree_size_ := if d.solved_ then add64 acc.2 1 else 0 } cs')
termination_by structural t => t

def annotateList : List PTree → Except String (List PTree)
  | [] => .ok []
  | c :: rest => do
    let c' ← annotate c
    let rest' ← annotateList rest
    .ok (c' :: rest')
termination_by structural l => l

end

/-- `std::string::find(key)` scanning helper: index of the first occurrence
of `key` in the remaining haystack, offset by `i`. -/
def findSubAux (key : List Char) : List Char → Nat → Option Nat
  | [], i => if key = [] then some i else none
  | c :: rest, i =>
    if key.isPrefixOf (c :: rest) then some i else findSubAux key rest (i + 1)

/-- `std::string::find(key)`. -/
def findSub (hay key : List Char) : Option Nat := findSubAux key hay 0

/-- `std::string::find(ch, pos)` for a single character. -/
def findCharAux (ch : Char) : List Char → Nat → Option Nat
  | [], _ => none
  | c :: rest, i => if c = ch then some i else findCharAux ch rest (i + 1)

/-- `comment.find(ch, pos)`. -/
def findCharFrom (hay : List Char) (ch : Char) (pos : Nat) : Option Nat :=
  (findCharAux ch (hay.drop pos) 0).map (fun i => pos + i)

/-- The static lambda `get_property` inside `SGFTreeNode::addProperty`
(sgf_tree_loader.hpp lines 27–40): find `key`, take the rest of that line,
dropping a `'\r'` just before a found `'\n'`; returns `""` when the key is
absent. -/
def getProp (comment key : List Char) : List Char :=
  match findSub comment key with
  | none => []
  | some pos0 =>
    let pos := pos0 + key.length
    let endPos :=
      match findCharFrom comment '\n' pos with
      | none => comment.length
      | some e => if 0 < e ∧ comment.getD (e - 1) ' ' = '\r' then e - 1 else e
    (comment.drop pos).take (endPos - pos)

/-- `SGFTreeNode::addProperty` (sgf_tree_loader.hpp lines 15–53).  The
`assert(...)` statements are modelled as `Except.error`.  Note that the
source sets `type_ = Type::OR` for tag `B` and `type_ = Type::AND` for
tag `W`. -/
def sgfAddProperty (d0 : NData) (tag : List Char) (values : List (List Char)) :
    Except String NData := do
  let mut d := d0
  if tag = "B".data then
    if values.length = 1 then
      d := { d with type_ := .OR }
    else
      throw "assertion failed: values.size() == 1"
  if tag = "W".data then
    if values.length = 1 then
      d := { d with type_ := .AND }
    else
      throw "assertion failed: values.size() == 1"
  if tag = "C".data then
    if values.length = 1 then
      pure ()
    else
      throw "assertion failed: values.size() == 1"
    let comment := values.headD []
    let solverStatus := getProp comment "solver_status: ".data
    if solverStatus = "WIN".data ∨ solverStatus = "LOSS".data then
      d := { d with solved_ := true }
    d := { d with match_tt_ := getProp comment "match_tt = ".data == "true".data }
    if d.match_tt_ && !d.solved_ then
      throw "assertion failed: !match_tt_ || solved_"
    d := { d with pruned_by_rzone_ := !(getProp comment "equal_loss = ".data == "-1".data) }
    if d.pruned_by_rzone_ && !d.solved_ then
      throw "assertion failed: !pruned_by_rzone_ || solved_"
  return { d with properties_ := d.properties_ ++ [(tag, values)] }

/-- `SGFTokenType` from `src/unnamed/part_002`. -/
inductive SGFTokenType where
  | LEFT_PAREN
  | RIGHT_PAREN
  | SEMICOLON
  | TAG
  | VALUE
  | IGNORE
  | ENDOFFILE
  | NONE
deriving DecidableEq, Repr

/-- `SGFToken`; `stop` is the source's `end` field (a Lean keyword). -/
structure SGFToken where
  type : SGFTokenType
  value : List Char
  start : Nat
  stop : Nat
deriving DecidableEq, Repr

/-- The `(message, start, end)` payload of a `LexicalError`. -/
structure ErrSpan where
  msg : String
  start : Nat
  stop : Nat
deriving DecidableEq, Repr

/-- The source's `isAlnum` (part_002 lines 203–206). -/
def isAlnumC (c : Char) : Bool :=
  (decide ('a' ≤ c) && decide (c ≤ 'z')) || (decide ('A' ≤ c) && decide (c ≤ 'Z'))
    || (decide ('0' ≤ c) && decide (c ≤ '9'))

/-- C `isspace` (default locale), used at part_002 line 196. -/
def isSpaceC (c : Char) : Bool :=
  c = ' ' || c = '\t' || c = '\n' || c = '\x0b' || c = '\x0c' || c = '\r'

/-- The bracketed-value loop of `SGFLexer::_nextToken` (part_002 lines
162–182).  The input position `i` plays the role of the stream index of
`StringInputStream`; `get` past the end yields `'\0'` without advancing.
The fuel argument only bounds the loop and is never exhausted when called
with `s.length + 1`. -/
def readValue (fuel : Nat) (s : List Char) (i : Nat) (acc : List Char) (esc : Bool) :
    Except ErrSpan (List Char × Nat) :=
  match fuel with
  | 0 => .error ⟨"fuel exhausted", 0, 0⟩
  | fuel + 1 =>
    if h : i < s.length then
      let c := s.get ⟨i, h⟩
      if c = '\x00' then .error ⟨"Unexpected end of file", i + 1, i + 1⟩
      else if c = ']' ∧ esc = false then .ok (acc, i + 1)
      else if c = '\\' ∧ esc = false then readValue fuel s (i + 1) (acc ++ [c]) true
      else readValue fuel s (i + 1) (acc ++ [c]) false
    else .error ⟨"Unexpected end of file", i, i⟩

/-- The tag loop of `SGFLexer::_nextToken` (part_002 lines 184–194),
peek-based: stops at the first character that is neither alphanumeric nor
`'_'` (or at end of stream). -/
def readTag (fuel : Nat) (s : List Char) (i : Nat) (acc : List Char) : List Char × Nat :=
  match fuel with
  | 0 => (acc, i)
  | fuel + 1 =>
    if h : i < s.length then
      let c := s.get ⟨i, h⟩
      if isAlnumC c || c = '_' then readTag fuel s (i + 1) (acc ++ [c])
      else (acc, i)
    else (acc, i)

/-- `SGFLexer::_nextToken` (part_002 lines 142–201) over a
`StringInputStream`: returns the next token and the stream index after it.
Whitespace is skipped by the recursive call (the `while` loop). -/
def lexNext (fuel : Nat) (s : List Char) (i : Nat) : Except ErrSpan (SGFToken × Nat) :=
  match fuel with
  | 0 => .error ⟨"fuel exhausted", 0, 0⟩
  | fuel + 1 =>
    if h : i < s.length then
      let c := s.get ⟨i, h⟩
      let j := i + 1
      if c = '\x00' then .ok (⟨.ENDOFFILE, [], j, j⟩, j)
      else if c = '(' then .ok (⟨.LEFT_PAREN, [c], j - 1, j⟩, j)
      else if c = ')' then .ok (⟨.RIGHT_PAREN, [c], j - 1, j⟩, j)
      else if c = ';' then .ok (⟨.SEMICOLON, [c], j - 1, j⟩, j)
      else if c = '[' then
        match readValue (s.length + 1) s j [] false with
        | .error e => .error e
        | .ok (v, k) => .ok (⟨.VALUE, v, k - v.length - 1, k⟩, k)
      else if isAlnumC c || c = '_' then
        let (tagv, k) := readTag (s.length + 1) s j [c]
        .ok (⟨.TAG, tagv, k - tagv.length, k⟩, k)
      else if isSpaceC c then lexNext fuel s j
      else .error ⟨"Invalid character", j - 1, j⟩
    else .ok (⟨.ENDOFFILE, [], i, i⟩, i)

/-- The error taxonomy of the parser: `LexicalError`, `SGFError`
(both with `(message, start, end)`), plain `std::runtime_error`, an
`assert` abort, plus two model artefacts: `fuelOut` (a loop bound of the
embedding was exhausted; never happens for the inputs used) and
`nullDeref` (C++ undefined behaviour such as dereferencing a null
pointer). -/
inductive PErr where
  | lex (msg : String) (start stop : Nat)
  | sgf (msg : String) (start stop : Nat)
  | runtimeErr (msg : String)
  | assertFail (msg : String)
  | fuelOut
  | nullDeref
deriving DecidableEq, Repr

/-- One heap node: the intrusive links of `BaseTreeNode`
(`parent_`, `child_`, `next_sibling_`, `num_children_`) plus the
`SGFTreeNode` data; `is_dummy` marks the parser's `DummyNode`.
Pointers are indices into an arena list; `none` is `nullptr`. -/
structure NodeRec where
  is_dummy : Bool := false
  parent_ : Option Nat := none
  child_ : Option Nat := none
  next_sibling_ : Option Nat := none
  num_children_ : Nat := 0
  data : NData := {}
deriving DecidableEq, Repr

/-- Pointer dereference. -/
def arGet (arena : List NodeRec) (i : Nat) : Option NodeRec := arena.get? i

/-- Pointer update. -/
def arSet (arena : List NodeRec) (i : Nat) (r : NodeRec) : List NodeRec := arena.set i r

/-- The `while (ptr->next_sibling_ != this)` walk inside
`BaseTreeNode::detach` (part_000 lines 40–43): predecessor of `target`
in the sibling chain starting at `ptr`. -/
def findPrevSib (arena : List NodeRec) (fuel : Nat) (ptr target : Nat) : Except PErr Nat :=
  match fuel with
  | 0 => .error .fuelOut
  | fuel + 1 =>
    match arGet arena ptr with
    | none => .error .nullDeref
    | some r =>
      match r.next_sibling_ with
      | none => .error .nullDeref
      | some nxt => if nxt = target then .ok ptr else findPrevSib arena fuel nxt target

/-- The `while (current->next_sibling_ != nullptr)` walk inside
`BaseTreeNode::addChild` (part_000 lines 19–22): last node of the sibling
chain starting at `ptr`. -/
def findLastSib (arena : List NodeRec) (fuel : Nat) (ptr : Nat) : Except PErr Nat :=
  match fuel with
  | 0 => .error .fuelOut
  | fuel + 1 =>
    match arGet arena ptr with
    | none => .error .nullDeref
    | some r =>
      match r.next_sibling_ with
      | none => .ok ptr
      | some nxt => findLastSib arena fuel nxt

/-- `BaseTreeNode::detach` (part_000 lines 34–51). -/
def detachNode (arena : List NodeRec) (i : Nat) : Except PErr (List NodeRec) :=
  match arGet arena i with
  | none => .error .nullDeref
  | some self =>
    match self.parent_ with
    | none => .ok arena
    | some p =>
      match arGet arena p with
      | none => .error .nullDeref
      | some pr => do
        let arena ←
          if pr.child_ = some i then
            .ok (arSet arena p { pr with child_ := self.next_sibling_ })
          else
            match pr.child_ with
            | none => .error .nullDeref
            | some headc => do
              let prev ← findPrevSib arena (arena.length + 1) headc i
              match arGet arena prev with
              | none => .error .nullDeref
              | some prevr =>
                .ok (arSet arena prev { prevr with next_sibling_ := self.next_sibling_ })
        match arGet arena p with
        | none => .error .nullDeref
        | some pr2 => do
          let arena := arSet arena p { pr2 with num_children_ := pr2.num_children_ - 1 }
          match arGet arena i with
          | none => .error .nullDeref
          | some self2 =>
            .ok (arSet arena i { self2 with parent_ := none, next_sibling_ := none })

/-- `addChild`: dispatches to `DummyNode::addChild` (part_001 lines
131–137, which only sets `child_`, throwing if one already exists) or to
`BaseTreeNode::addChild` (part_000 lines 13–27). -/
def addChildNode (arena : List NodeRec) (parentIdx childIdx : Nat) :
    Except PErr (List NodeRec) :=
  match arGet arena parentIdx with
  | none => .error .nullDeref
  | some pr =>
    if pr.is_dummy then
      if pr.child_ ≠ none then .error (.runtimeErr "DummyNode can only have one child")
      else .ok (arSet arena parentIdx { pr with child_ := some childIdx })
    else do
      let arena ← detachNode arena childIdx
      match arGet arena parentIdx with
      | none => .error .nullDeref
      | some pr => do
        let arena ←
          match pr.child_ with
          | none => .ok (arSet arena parentIdx { pr with child_ := some childIdx })
          | some headc => do
            let lastSib ← findLastSib arena (arena.length + 1) headc
            match arGet arena lastSib with
            | none => .error .nullDeref
            | some lr => .ok (arSet arena lastSib { lr with next_sibling_ := some childIdx })
        match arGet arena childIdx with
        | none => .error .nullDeref
        | some cr => do
          let arena := arSet arena childIdx { cr with parent_ := some parentIdx }
          match arGet arena parentIdx with
          | none => .error .nullDeref
          | some pr2 =>
            .ok (arSet arena parentIdx { pr2 with num_children_ := add64 pr2.num_children_ 1 })

/-- `SGFParser::Element::Type`. -/
inductive ElemType where
  | LEFT_PAREN
  | NODE
deriving DecidableEq, Repr

/-- `SGFParser::Element`: a stack frame. -/
structure StackElem where
  etype : ElemType
  start : Nat := 0
  stop : Nat := 0
  node : Option Nat := none
deriving DecidableEq, Repr

/-- `NextState` bits (part_001 lines 157–163). -/
def NS_LEFT_PAREN : Nat := 1

def NS_RIGHT_PAREN : Nat := 2

def NS_SEMICOLON : Nat := 4

def NS_TAG : Nat := 8

def NS_VALUE : Nat := 16

/-- The persistent state of an `SGFParser` over a `StringInputStream`:
input, stream index, heap arena (index 0 is `dummy_root_`), stack (head
is the top), `current_`, `next_state_`, and the allocator's
`id_counter_`. -/
structure PState where
  input : List Char
  lexIdx : Nat
  arena : List NodeRec
  stack : List StackElem
  current : Nat
  nextState : Nat
  idCounter : Nat
deriving DecidableEq, Repr

/-- The `SGFParser` constructor (part_001 lines 166–170) with a fresh
`LambdaNodeAllocator`-backed tree. -/
def parserInit (s : List Char) : PState :=
  { input := s, lexIdx := 0,
    arena := [{ is_dummy := true }],
    stack := [], current := 0, nextState := NS_LEFT_PAREN, idCounter := 0 }

/-- `LambdaNodeAllocator::allocate` via `Tree::createNode`: default
`SGFTreeNode` with `id_ = id_counter_++`; returns the new pointer. -/
def allocNode (st : PState) : Nat × PState :=
  (st.arena.length,
    { st with arena := st.arena ++ [{ data := { id_ := st.idCounter } }],
              idCounter := st.idCounter + 1 })

/-- Flush the pending `(tag, values)` pair into `current_` via its
virtual `addProperty` (`DummyNode` throws; `SGFTreeNode` is
`sgfAddProperty`, whose assert failures abort). -/
def flushProp (st : PState) (tag : List Char) (values : List (List Char)) :
    Except PErr PState :=
  match arGet st.arena st.current with
  | none => .error .nullDeref
  | some r =>
    if r.is_dummy then .error (.runtimeErr "DummyNode cannot have properties")
    else
      match sgfAddProperty r.data tag values with
      | .error m => .error (.assertFail m)
      | .ok d' => .ok { st with arena := arSet st.arena st.current { r with data := d' } }

/-- The "pop until `'('`" loop in the `RIGHT_PAREN` case (part_001 lines
218–227); throws `Unmatched right parentheses` if the stack runs out. -/
def popUntilLP : List StackElem → Nat → Nat → Except PErr (List StackElem)
  | [], s, e => .error (.sgf "Unmatched right parentheses" s e)
  | el :: rest, s, e =>
    if el.etype = .LEFT_PAREN then .ok rest else popUntilLP rest s e

/-- The end-of-stream "pop until the first `'('`" loop (part_001 lines
306–314); `(0, 0)` corresponds to the value-initialized `Element` when no
`'('` frame is present (not reachable from well-formed parser states). -/
def findLPSpan : List StackElem → Nat × Nat
  | [] => (0, 0)
  | el :: rest => if el.etype = .LEFT_PAREN then (el.start, el.stop) else findLPSpan rest

/-- The code after the token loop of `nextNode` (part_001 lines 303–324):
unmatched-parenthesis check, then detach of the dummy root's child, then
return of the null sentinel. -/
def parserFinish (st : PState) : Except PErr (Option Nat × PState) :=
  if st.stack ≠ [] then
    let sp := findLPSpan st.stack
    .error (.sgf "Unmatched left parentheses" sp.1 sp.2)
  else
    match arGet st.arena 0 with
    | none => .error .nullDeref
    | some dr =>
      match dr.child_ with
      | none => .ok (none, st)
      | some rc =>
        match detachNode st.arena rc with
        | .error e => .error e
        | .ok arena => .ok (none, { st with arena := arena })

/-- The token loop of `SGFParser::nextNode` (part_001 lines 177–325).
`cacheTag` / `cacheValues` are the local pending-property accumulators of
one call.  The fuel argument bounds the loop; every continuing iteration
consumes at least one input character, so `input.length + 2` suffices. -/
def nextNodeLoop (fuel : Nat) (st : PState) (cacheTag : List Char)
    (cacheValues : List (List Char)) : Except PErr (Option Nat × PState) :=
  match fuel with
  | 0 => .error .fuelOut
  | fuel + 1 =>
    match lexNext (st.input.length + 1) st.input st.lexIdx with
    | .error e => .error (.lex e.msg e.start e.stop)
    | .ok (tok, k) =>
      let st := { st with lexIdx := k }
      match tok.type with
      | .ENDOFFILE => parserFinish st
      | .LEFT_PAREN =>
        if st.nextState &&& NS_LEFT_PAREN = 0 then
          .error (.sgf "Unexpected left parentheses" tok.start tok.stop)
        else
          let st := { st with
            stack := ⟨.LEFT_PAREN, tok.start, tok.stop, none⟩
                       :: ⟨.NODE, 0, 0, some st.current⟩ :: st.stack,
            nextState := NS_SEMICOLON }
          nextNodeLoop fuel st cacheTag cacheValues
      | .RIGHT_PAREN =>
        if st.nextState &&& NS_RIGHT_PAREN = 0 then
          .error (.sgf "Unexpected right parentheses" tok.start tok.stop)
        else if st.stack = [] then
          .error (.sgf "Unmatched right parentheses" tok.start tok.stop)
        else do
          let (returnNode, st) ←
            if cacheValues ≠ [] then do
              let st' ← flushProp st cacheTag cacheValues
              pure (some st'.current, st')
            else pure ((none : Option Nat), st)
          let stack2 ← popUntilLP st.stack tok.start tok.stop
          match stack2 with
          | [] => .error .nullDeref
          | top :: rest =>
            match top.node with
            | none => .error .nullDeref
            | some n =>
              let st := { st with stack := rest, current := n,
                                  nextState := NS_LEFT_PAREN ||| NS_RIGHT_PAREN }
              match returnNode with
              | some r => .ok (some r, st)
              | none => nextNodeLoop fuel st cacheTag cacheValues
      | .SEMICOLON =>
        if st.nextState &&& NS_SEMICOLON = 0 then
          .error (.sgf "Unexpected semicolon" tok.start tok.stop)
        else do
          let (returnNode, st) ←
            if cacheValues ≠ [] then do
              let st' ← flushProp st cacheTag cacheValues
              pure (some st'.current, st')
            else pure ((none : Option Nat), st)
          let parentIdx := st.current
          let st := { st with stack := ⟨.NODE, 0, 0, some parentIdx⟩ :: st.stack }
          let (newIdx, st) := allocNode st
          let arena ← addChildNode st.arena parentIdx newIdx
          let st := { st with arena := arena, current := newIdx, nextState := NS_TAG }
          match returnNode with
          | some r => .ok (some r, st)
          | none => nextNodeLoop fuel st cacheTag cacheValues
      | .TAG =>
        if st.nextState &&& NS_TAG = 0 then
          .error (.sgf ("Unexpected tag " ++ String.mk tok.value) tok.start tok.stop)
        else do
          let st ←
            if cacheValues ≠ [] then flushProp st cacheTag cacheValues
            else pure st
          nextNodeLoop fuel { st with nextState := NS_VALUE } tok.value []
      | .VALUE =>
        if st.nextState &&& NS_VALUE = 0 then
          .error (.sgf ("Unexpected value " ++ String.mk tok.value) tok.start tok.stop)
        else
          let st := { st with
            nextState := NS_LEFT_PAREN ||| NS_RIGHT_PAREN ||| NS_SEMICOLON
                           ||| NS_TAG ||| NS_VALUE }
          nextNodeLoop fuel st cacheTag (cacheValues ++ [tok.value])
      | .IGNORE => nextNodeLoop fuel st cacheTag cacheValues
      | .NONE =>
        .error (.sgf ("Unexpected token " ++ String.mk tok.value) tok.start tok.stop)

/-- One call of `SGFParser::nextNode`: returns the emitted node pointer
(or `none` for the end sentinel) and the updated parser. -/
def nextNode (st : PState) : Except PErr (Option Nat × PState) :=
  nextNodeLoop (st.input.length + 2) st [] []

/-- `k` successive `nextNode()` calls, collecting the returned pointers. -/
def nextNodes : Nat → PState → Except PErr (List (Option Nat) × PState)
  | 0, st => .ok ([], st)
  | k + 1, st => do
    let (r, st') ← nextNode st
    let (rs, st'') ← nextNodes k st'
    .ok ((r :: rs), st'')

/-- The `while (parser.nextNode());` loop of `SGFTreeLoader::loadSgf`. -/
def drainParser : Nat → PState → Except PErr PState
  | 0, _ => .error .fuelOut
  | fuel + 1, st => do
    let (r, st') ← nextNode st
    match r with
    | none => .ok st'
    | some _ => drainParser fuel st'

mutual

/-- Materialize the subtree reachable from pointer `i` by walking the
`child_` / `next_sibling_` chains, exactly as `dfsTreeSize` and `_toSgf`
traverse it. -/
def extractNode (arena : List NodeRec) (i : Nat) (fuel : Nat) : Except PErr PTree :=
  match fuel with
  | 0 => .error .fuelOut
  | fuel + 1 =>
    match arGet arena i with
    | none => .error .nullDeref
    | some r => do
      let cs ← extractChildren arena r.child_ fuel
      .ok (.node r.data cs)

def extractChildren (arena : List NodeRec) (oi : Option Nat) (fuel : Nat) :
    Except PErr (List PTree) :=
  match fuel with
  | 0 => .error .fuelOut
  | fuel + 1 =>
    match oi with
    | none => .ok []
    | some i =>
      match arGet arena i with
      | none => .error .nullDeref
      | some r => do
        let t ← extractNode arena i fuel
        let rest ← extractChildren arena r.next_sibling_ fuel
        .ok (t :: rest)

end

/-- The parsing phase of `SGFTreeLoader::loadSgf` (sgf_tree_loader.hpp
lines 176–185): `root = parser.nextNode(); while (parser.nextNode());`.
Returns the root pointer and the final parser state. -/
def parseAll (s : List Char) : Except PErr (Option Nat × PState) := do
  let st0 := parserInit s
  let (root?, st1) ← nextNode st0
  let st2 ← drainParser (s.length + 2) st1
  .ok (root?, st2)

/-- `SGFTreeLoader::loadFromString` (sgf_tree_loader.hpp lines 163–188):
parse the whole input, then run the `dfsTreeSize` annotation pass on the
root's subtree.  A null root makes `dfsTreeSize(nullptr)` undefined
behaviour (`nullDeref`). -/
def loadFromString (s : List Char) : Except PErr PTree := do
  let (root?, st2) ← parseAll s
  match root? with
  | none => .error .nullDeref
  | some rIdx => do
    let t ← extractNode st2.arena rIdx (2 * st2.arena.length + 2)
    match annotate t with
    | .error m => .error (.assertFail m)
    | .ok t' => .ok t'

/-- `TreeNode::typeToString` (part_000 lines 68–78). -/
def typeToString : NType → List Char
  | .AND => "AND".data
  | .OR => "OR".data
  | .NONE => "NONE".data

/-- `oss << (b ? "true" : "false")`. -/
def boolToChars (b : Bool) : List Char :=
  if b then "true".data else "false".data

/-- One property group as printed by `SGFTreeNode::_toSgfString`
(sgf_tree_loader.hpp lines 81–102): ordinary tags re-emit their values
verbatim; a `C` tag re-emits its single value with the computed metadata
lines appended inside the same brackets. -/
def propChars (d : NData) (p : List Char × List (List Char)) : List Char :=
  if p.1 = "C".data then
    p.1 ++ "[".data ++ p.2.headD [] ++ "\n".data
      ++ "id = ".data ++ (Nat.repr d.id_).data ++ "\n".data
      ++ "type = ".data ++ typeToString d.type_ ++ "\n".data
      ++ "tree_size = ".data ++ (Nat.repr d.tree_size_).data ++ "\n".data
      ++ "proof_tree_size = ".data ++ (Nat.repr d.proof_tree_size_).data ++ "\n".data
      ++ "solved = ".data ++ boolToChars d.solved_ ++ "\n".data
      ++ "match_tt = ".data ++ boolToChars d.match_tt_ ++ "\n".data
      ++ "pruned_by_rzone = ".data ++ boolToChars d.pruned_by_rzone_ ++ "]".data
  else
    p.1 ++ (p.2.map (fun v => "[".data ++ v ++ "]".data)).flatten

/-- `SGFTreeNode::_toSgfString`: `";"` followed by every property. -/
def sgfNodeStr (d : NData) : List Char :=
  ";".data ++ (d.properties_.map (propChars d)).flatten

mutual

/-- `SGFTreeNode::_toSgf` (lines 104–127) for a node with no further
sibling: its own statement followed by its child chain. -/
def sgfNodeT : PTree → List Char
  | .node d cs => sgfNodeStr d ++ sgfChildrenT cs

/-- `SGFTreeNode::_toSgf` for a sibling chain: with two or more further
siblings each is wrapped in its own parenthesis group; with exactly one
further sibling both get one group each (the else branch of line 114);
with no sibling the node is emitted inline. -/
def sgfChildrenT : List PTree → List Char
  | [] => []
  | [c] => sgfNodeT c
  | [c1, c2] =>
    "(".data ++ sgfNodeT c1 ++ ")".data ++ "(".data ++ sgfNodeT c2 ++ ")".data
  | c :: rest => "(".data ++ sgfNodeT c ++ ")".data ++ sgfChildrenT rest

end

/-- `SGFTreeNode::toSgf` (lines 74–78): the whole tree wrapped in one
parenthesis pair (the root has no sibling). -/
def toSgf (t : PTree) : List Char := "(".data ++ sgfNodeT t ++ ")".data

mutual

/-- The value computed by `annotate` when no assertion fires (the
assertion on line 214 is in a branch whose guard already forces
`solved_ = true`, so it can in fact never fire; `annotate_eq_pure`
proves this). -/
def annPure : PTree → PTree
  | .node d [] =>
    .node { d with tree_size_ := 1,
                   proof_tree_size_ := if d.solved_ then 1 else 0 } []
  | .node d (c :: rest) =>
    let cs' := annPureList (c :: rest)
    let acc := cs'.foldl (annStep d.type_) (1, if d.type_ = .AND then 0 else SMAX)
    .node { d with tree_size_ := acc.1,
                   proof_tree_size_ :=
                     if d.solved_ = true ∧ acc.2 = SMAX then 1
                     else if d.solved_ then add64 acc.2 1 else 0 } cs'
termination_by structural t => t

def annPureList : List PTree → List PTree
  | [] => []
  | c :: rest => annPure c :: annPureList rest
termination_by structural l => l

end

/-- The `tree_size` component of the loop. -/
def stepTs (x : Nat) (c : PTree) : Nat := add64 x c.treeSizeF

/-- The `proof_tree_size` component of the loop. -/
def stepPt (ty : NType) (b : Nat) (c : PTree) : Nat :=
  if ty = .AND ∧ c.solvedF then add64 b c.proofF
  else if ty = .OR ∧ c.solvedF then Nat.min b c.proofF
  else b

/-- Claim C6's per-node property: `tree_size_` is one plus the sum of the
children's `tree_size_` values, and is the node count of the subtree. -/
def P_c6 (n : PTree) : Prop :=
  n.treeSizeF = 1 + (n.childrenL.map PTree.treeSizeF).sum ∧ n.treeSizeF = n.count

/-- Claim C2's per-node property (amended with the node itself solved). -/
def P_c2 (n : PTree) : Prop :=
  n.childrenL ≠ [] → n.typeF = .AND → n.solvedF = true →
    (∀ c ∈ n.childrenL, c.solvedF = true) →
    n.proofF = 1 + (n.childrenL.map PTree.proofF).sum

/-- Claim C3's per-node property (amended with the node itself solved):
`proof_tree_size_` is one plus the minimum `proof_tree_size_` over the
solved children. -/
def P_c3 (n : PTree) : Prop :=
  n.childrenL ≠ [] → n.typeF = .OR → n.solvedF = true →
    (∃ c ∈ n.childrenL, c.solvedF = true) →
    ∃ m, n.proofF = 1 + m
      ∧ (∃ c ∈ n.childrenL, c.solvedF = true ∧ c.proofF = m)
      ∧ (∀ c ∈ n.childrenL, c.solvedF = true → m ≤ c.proofF)

/-- Claim C4's per-node property, as the code actually behaves: a solved
node with no solved children silently gets `proof_tree_size_ = 1`. -/
def P_c4 (n : PTree) : Prop :=
  n.solvedF = true → (∀ c ∈ n.childrenL, c.solvedF = false) → n.proofF = 1

/-- The spec's running example input `(;B[a](;W[b];B[c])(;W[d]))`. -/
def exInput : List Char := "(;B[a](;W[b];B[c])(;W[d]))".data

/-- The heap after the example input is fully parsed: index 0 is the
dummy root, indices 1–4 the four nodes in creation (= document) order. -/
def exArena : List NodeRec :=
  [ { is_dummy := true, child_ := some 1 },
    { child_ := some 2, num_children_ := 2,
      data := { id_ := 0, type_ := .OR, properties_ := [("B".data, ["a".data])] } },
    { parent_ := some 1, child_ := some 3, next_sibling_ := some 4, num_children_ := 1,
      data := { id_ := 1, type_ := .AND, properties_ := [("W".data, ["b".data])] } },
    { parent_ := some 2,
      data := { id_ := 2, type_ := .OR, properties_ := [("B".data, ["c".data])] } },
    { parent_ := some 1,
      data := { id_ := 3, type_ := .AND, properties_ := [("W".data, ["d".data])] } } ]

/-- The parser state after the example input is exhausted. -/
def exStFinal : PState :=
  { input := exInput, lexIdx := 26, arena := exArena, stack := [], current := 0,
    nextState := 3, idCounter := 4 }

/-- The tree parsed from the example input, before annotation. -/
def exTree : PTree :=
  .node { id_ := 0, type_ := .OR, properties_ := [("B".data, ["a".data])] }
    [ .node { id_ := 1, type_ := .AND, properties_ := [("W".data, ["b".data])] }
        [ .node { id_ := 2, type_ := .OR, properties_ := [("B".data, ["c".data])] } [] ],
      .node { id_ := 3, type_ := .AND, properties_ := [("W".data, ["d".data])] } [] ]

/-- The example tree after the annotation pass. -/
def exTreeAnn : PTree :=
  .node { id_ := 0, type_ := .OR, tree_size_ := 4,
          properties_ := [("B".data, ["a".data])] }
    [ .node { id_ := 1, type_ := .AND, tree_size_ := 2,
              properties_ := [("W".data, ["b".data])] }
        [ .node { id_ := 2, type_ := .OR, tree_size_ := 1,
                  properties_ := [("B".data, ["c".data])] } [] ],
      .node { id_ := 3, type_ := .AND, tree_size_ := 1,
              properties_ := [("W".data, ["d".data])] } [] ]

/-- The malformed input of claim C9 (extra closing parenthesis). -/
def d9Input : List Char := "(;B[a]))".data

/-- The two-game-tree input of claim C10. -/
def d10Input : List Char := "(;B[a])(;W[b])".data

/-- A comment whose last line is `solver_status: WIN` terminated by a bare
carriage return and no newline. -/
def s7Comment : List Char := "equal_loss = -1\nsolver_status: WIN\r".data

/-- The round-trip counterexample input of claim C7. -/
def s7Input : List Char := "(;C[equal_loss = -1\nsolver_status: WIN\r])".data

/-- Parser state after parsing `s7Input`. -/
def s7St : PState :=
  { input := s7Input, lexIdx := 41,
    arena := [ { is_dummy := true, child_ := some 1 },
               { data := { id_ := 0, properties_ := [("C".data, [s7Comment])] } } ],
    stack := [], current := 0, nextState := 3, idCounter := 1 }

/-- The annotated single-node tree loaded from `s7Input`: note
`solved_ = false` (the `WIN` line ends in `\r` with no following `\n`,
so `get_property` returns `WIN\r`). -/
def s7Tree : PTree :=
  .node { id_ := 0, tree_size_ := 1, properties_ := [("C".data, [s7Comment])] } []

/-- The comment after re-serialization: the metadata block appended by
`_toSgfString` places a `\n` right after the trailing `\r`. -/
def s7Comment2 : List Char :=
  ("equal_loss = -1\nsolver_status: WIN\r\nid = 0\ntype = NONE\ntree_size = 1\n"
    ++ "proof_tree_size = 0\nsolved = false\nmatch_tt = false\npruned_by_rzone = false").data

/-- Parser state after parsing the re-serialized text: the node is now
`solved_ = true` because `get_property` strips the `\r` before the
newly-present `\n` and extracts exactly `WIN`. -/
def s7St2 : PState :=
  { input := toSgf s7Tree, lexIdx := 150,
    arena := [ { is_dummy := true, child_ := some 1 },
               { data := { id_ := 0, solved_ := true,
                           properties_ := [("C".data, [s7Comment2])] } } ],
    stack := [], current := 0, nextState := 3, idCounter := 1 }

/-- The annotated tree loaded from the re-serialized text. -/
def s7Tree2 : PTree :=
  .node { id_ := 0, tree_size_ := 1, proof_tree_size_ := 1, solved_ := true,
          properties_ := [("C".data, [s7Comment2])] } []

/-- An unsolved AND node whose only child is solved (claim C2). -/
def t2ce : PTree := .node { type_ := .AND } [ .node { solved_ := true } [] ]

/-- Its annotation. -/
def t2ceAnn : PTree :=
  .node { type_ := .AND, tree_size_ := 2 }
    [ .node { tree_size_ := 1, proof_tree_size_ := 1, solved_ := true } [] ]

/-- A solved AND node with two solved children (claim C2's witness). -/
def t2w : PTree :=
  .node { type_ := .AND, solved_ := true }
    [ .node { solved_ := true } [], .node { solved_ := true } [] ]

/-- Its annotation. -/
def t2wAnn : PTree :=
  .node { type_ := .AND, tree_size_ := 3, proof_tree_size_ := 3, solved_ := true }
    [ .node { tree_size_ := 1, proof_tree_size_ := 1, solved_ := true } [],
      .node { tree_size_ := 1, proof_tree_size_ := 1, solved_ := true } [] ]

/-- An unsolved OR node whose only child is solved (claim C3). -/
def t3ce : PTree := .node { type_ := .OR } [ .node { solved_ := true } [] ]

/-- Its annotation. -/
def t3ceAnn : PTree :=
  .node { type_ := .OR, tree_size_ := 2 }
    [ .node { tree_size_ := 1, proof_tree_size_ := 1, solved_ := true } [] ]

/-- A solved OR node with two solved children of proof sizes 2 and 1
(claim C3's witness). -/
def t3w : PTree :=
  .node { type_ := .OR, solved_ := true }
    [ .node { type_ := .OR, solved_ := true } [ .node { solved_ := true } [] ],
      .node { solved_ := true } [] ]

/-- Its annotation: the minimum solved-child proof size is 1, so the
root gets proof size 2. -/
def t3wAnn : PTree :=
  .node { type_ := .OR, tree_size_ := 4, proof_tree_size_ := 2, solved_ := true }
    [ .node { type_ := .OR, tree_size_ := 2, proof_tree_size_ := 2, solved_ := true }
        [ .node { tree_size_ := 1, proof_tree_size_ := 1, solved_ := true } [] ],
      .node { tree_size_ := 1, proof_tree_size_ := 1, solved_ := true } [] ]

/-- A solved OR node with an unsolved only child and neither provenance
flag (claim C4). -/
def t4ce : PTree := .node { type_ := .OR, solved_ := true } [ .node {} [] ]

/-- Its annotation: the sentinel survives, and the node silently gets
`proof_tree_size_ = 1`. -/
def t4ceAnn : PTree :=
  .node { type_ := .OR, tree_size_ := 2, proof_tree_size_ := 1, solved_ := true }
    [ .node { tree_size_ := 1 } [] ]

/-- Structural induction over `PTree` with the usual rose-tree hypothesis. -/
theorem PTree.inductionOn (P : PTree → Prop)
    (h : ∀ d cs, (∀ c, c ∈ cs → P c) → P (.node d cs)) : ∀ t, P t
  | .node d cs => by
    refine h d cs ?_
    intro c hc
    have hlt : sizeOf c < sizeOf (PTree.node d cs) := by
      have := List.sizeOf_lt_of_mem hc
      simp only [PTree.node.sizeOf_spec]
      omega
    exact PTree.inductionOn P h c
termination_by t => sizeOf t

theorem annotateList_eq_pure_of (cs : List PTree)
    (h : ∀ c, c ∈ cs → annotate c = .ok (annPure c)) :
    annotateList cs = .ok (annPureList cs) := by
  induction cs with
  | nil => rfl
  | cons c rest ih =>
    have hc : annotate c = .ok (annPure c) := h c (by simp)
    have hr : annotateList rest = .ok (annPureList rest) := by
      refine ih ?_
      intro x hx
      exact h x (by simp [hx])
    simp [annotateList, hc, hr, annPureList, bind, Except.bind]

/-- The annotation pass never hits its assertion: it returns exactly
`annPure`. -/
theorem annotate_eq_pure : ∀ t, annotate t = .ok (annPure t) := by
  refine PTree.inductionOn _ ?_
  intro d cs ih
  match cs with
  | [] => rfl
  | c :: rest =>
    have hlist : annotateList (c :: rest) = .ok (annPureList (c :: rest)) :=
      annotateList_eq_pure_of _ ih
    rw [annotate, hlist]
    by_cases hs : d.solved_ = true
    · by_cases hm :
        ((annPureList (c :: rest)).foldl (annStep d.type_)
          (1, if d.type_ = .AND then 0 else SMAX)).2 = SMAX
      · simp [annPure, hs, hm, bind, Except.bind]
      · simp [annPure, hs, hm, bind, Except.bind]
    · simp at hs
      simp [annPure, hs, bind, Except.bind]

theorem annPureList_eq_map : ∀ cs, annPureList cs = cs.map annPure := by
  intro cs
  induction cs with
  | nil => rfl
  | cons c rest ih => simp [annPureList, ih]

theorem annPure_childrenL (d : NData) (cs : List PTree) :
    (annPure (.node d cs)).childrenL = annPureList cs := by
  cases cs <;> simp [annPure, PTree.childrenL, annPureList]

theorem annPure_solvedF (t : PTree) : (annPure t).solvedF = t.solvedF := by
  match t with
  | .node d [] => simp [annPure, PTree.solvedF, PTree.dataF]
  | .node d (c :: rest) => simp [annPure, PTree.solvedF, PTree.dataF]

theorem annPure_typeF (t : PTree) : (annPure t).typeF = t.typeF := by
  match t with
  | .node d [] => simp [annPure, PTree.typeF, PTree.dataF]
  | .node d (c :: rest) => simp [annPure, PTree.typeF, PTree.dataF]

theorem countList_congr_of (cs : List PTree)
    (h : ∀ c ∈ cs, (annPure c).count = c.count) :
    PTree.countList (annPureList cs) = PTree.countList cs := by
  induction cs with
  | nil => rfl
  | cons c rest ih =>
    have h1 : (annPure c).count = c.count := h c (by simp)
    have h2 := ih (fun x hx => h x (by simp [hx]))
    simp [annPureList, PTree.countList, h1, h2]

theorem annPure_count : ∀ t, (annPure t).count = t.count := by
  refine PTree.inductionOn _ ?_
  intro d cs ih
  match cs with
  | [] => rfl
  | c :: rest =>
    have := countList_congr_of (c :: rest) ih
    simp [annPure, PTree.count, this]

theorem foldl_annStep_fst (ty : NType) :
    ∀ (cs : List PTree) (a b : Nat), (cs.foldl (annStep ty) (a, b)).1 = cs.foldl stepTs a := by
  intro cs
  induction cs with
  | nil => intro a b; rfl
  | cons c rest ih =>
    intro a b
    simp only [List.foldl_cons]
    rw [show annStep ty (a, b) c = (stepTs a c, stepPt ty b c) from rfl]
    exact ih _ _

theorem foldl_annStep_snd (ty : NType) :
    ∀ (cs : List PTree) (a b : Nat), (cs.foldl (annStep ty) (a, b)).2 = cs.foldl (stepPt ty) b := by
  intro cs
  induction cs with
  | nil => intro a b; rfl
  | cons c rest ih =>
    intro a b
    simp only [List.foldl_cons]
    rw [show annStep ty (a, b) c = (stepTs a c, stepPt ty b c) from rfl]
    exact ih _ _

theorem add64_eq_add (a b : Nat) (h : a + b < U64) : add64 a b = a + b := by
  simpa [add64] using Nat.mod_eq_of_lt h

theorem foldl_add64_eq_sum : ∀ (l : List Nat) (a : Nat), a + l.sum < U64 →
    l.foldl add64 a = a + l.sum := by
  intro l
  induction l with
  | nil => intro a _; simp
  | cons x xs ih =>
    intro a h
    simp only [List.sum_cons] at h
    have hx : a + x < U64 := by omega
    simp only [List.foldl_cons]
    rw [add64_eq_add a x hx, ih (a + x) (by omega)]
    simp [List.sum_cons]
    omega

theorem foldl_stepTs_eq (cs : List PTree) :
    ∀ a : Nat, a + (cs.map PTree.treeSizeF).sum < U64 →
      cs.foldl stepTs a = a + (cs.map PTree.treeSizeF).sum := by
  have : ∀ a, cs.foldl stepTs a = (cs.map PTree.treeSizeF).foldl add64 a := by
    intro a
    rw [List.foldl_map]
    rfl
  intro a h
  rw [this a]
  exact foldl_add64_eq_sum _ a h

theorem foldl_stepPt_and (cs : List PTree) :
    ∀ b : Nat, cs.foldl (stepPt .AND) b
      = ((cs.filter (fun c => c.solvedF)).map PTree.proofF).foldl add64 b := by
  induction cs with
  | nil => intro b; rfl
  | cons c rest ih =>
    intro b
    by_cases hs : c.solvedF
    · simp [stepPt, hs, List.filter_cons, ih]
    · simp [stepPt, hs, List.filter_cons, ih]

theorem foldl_stepPt_or (cs : List PTree) :
    ∀ b : Nat, cs.foldl (stepPt .OR) b
      = ((cs.filter (fun c => c.solvedF)).map PTree.proofF).foldl Nat.min b := by
  induction cs with
  | nil => intro b; rfl
  | cons c rest ih =>
    intro b
    by_cases hs : c.solvedF
    · simp [stepPt, hs, List.filter_cons, ih]
    · simp [stepPt, hs, List.filter_cons, ih]

theorem foldl_min_le_init : ∀ (l : List Nat) (b : Nat), l.foldl Nat.min b ≤ b := by
  intro l
  induction l with
  | nil => intro b; simp
  | cons x xs ih =>
    intro b
    simp only [List.foldl_cons]
    exact le_trans (ih (Nat.min b x)) (Nat.min_le_left b x)

theorem foldl_min_le_mem : ∀ (l : List Nat) (b x : Nat), x ∈ l → l.foldl Nat.min b ≤ x := by
  intro l
  induction l with
  | nil => intro b x hx; simp at hx
  | cons y ys ih =>
    intro b x hx
    simp only [List.foldl_cons]
    rcases List.mem_cons.mp hx with h | h
    · subst h
      exact le_trans (foldl_min_le_init ys _) (Nat.min_le_right b x)
    · exact ih _ x h

theorem foldl_min_eq_init_or_mem : ∀ (l : List Nat) (b : Nat),
    l.foldl Nat.min b = b ∨ l.foldl Nat.min b ∈ l := by
  intro l
  induction l with
  | nil => intro b; simp
  | cons x xs ih =>
    intro b
    simp only [List.foldl_cons]
    rcases ih (Nat.min b x) with h | h
    · have hmm : Nat.min b x = b ∨ Nat.min b x = x := by
        rcases Nat.le_total b x with hc | hc
        · exact Or.inl (Nat.min_eq_left hc)
        · exact Or.inr (Nat.min_eq_right hc)
      rcases hmm with h2 | h2
      · left; rw [h, h2]
      · right; rw [h, h2]; simp
    · right; simp [h]

theorem count_pos : ∀ t : PTree, 1 ≤ t.count := by
  intro t
  match t with
  | .node d cs => simp [PTree.count]

theorem count_mem_le : ∀ (cs : List PTree) (c : PTree), c ∈ cs →
    c.count ≤ PTree.countList cs := by
  intro cs
  induction cs with
  | nil => intro c hc; simp at hc
  | cons x xs ih =>
    intro c hc
    rcases List.mem_cons.mp hc with h | h
    · subst h; simp [PTree.countList]
    · have := ih c h
      simp [PTree.countList]
      omega

theorem countList_eq_sum_map : ∀ cs : List PTree,
    PTree.countList cs = (cs.map PTree.count).sum := by
  intro cs
  induction cs with
  | nil => rfl
  | cons c rest ih => simp [PTree.countList, ih]

theorem foldl_stepPt_none (cs : List PTree) :
    ∀ b : Nat, cs.foldl (stepPt .NONE) b = b := by
  induction cs with
  | nil => intro b; rfl
  | cons c rest ih =>
    intro b
    simp only [List.foldl_cons]
    rw [show stepPt .NONE b c = b by simp [stepPt], ih]

theorem annPure_treeSizeF_cons (d : NData) (c : PTree) (rest : List PTree) :
    (annPure (.node d (c :: rest))).treeSizeF
      = ((annPureList (c :: rest)).foldl (annStep d.type_)
          (1, if d.type_ = .AND then 0 else SMAX)).1 := by
  simp [annPure, PTree.treeSizeF, PTree.dataF]

theorem annPure_proofF_cons (d : NData) (c : PTree) (rest : List PTree) :
    (annPure (.node d (c :: rest))).proofF
      = (if d.solved_ = true ∧ ((annPureList (c :: rest)).foldl (annStep d.type_)
            (1, if d.type_ = .AND then 0 else SMAX)).2 = SMAX then 1
         else if d.solved_ then
           add64 ((annPureList (c :: rest)).foldl (annStep d.type_)
             (1, if d.type_ = .AND then 0 else SMAX)).2 1
         else 0) := by
  simp [annPure, PTree.proofF, PTree.dataF]

theorem ts_map_eq (cs : List PTree)
    (h : ∀ x ∈ cs, (annPure x).treeSizeF = x.count) :
    (annPureList cs).map PTree.treeSizeF = cs.map PTree.count := by
  rw [annPureList_eq_map, List.map_map]
  refine List.map_congr_left ?_
  intro a ha
  simp [h a ha]

theorem U64_pos : 0 < U64 := by norm_num [U64]

theorem SMAX_add_one : SMAX + 1 = U64 := by
  have h : 1 ≤ U64 := U64_pos
  simp only [SMAX]
  omega

theorem proofs_sum_le (cs : List PTree)
    (h : ∀ x ∈ cs, (annPure x).proofF ≤ x.count) :
    (((annPureList cs).filter (fun c => c.solvedF)).map PTree.proofF).sum
      ≤ PTree.countList cs := by
  have h1 : List.Sublist (((annPureList cs).filter (fun c => c.solvedF)).map PTree.proofF)
      ((annPureList cs).map PTree.proofF) :=
    (List.filter_sublist _).map _
  have h2 := h1.sum_le_sum (by intro a _; exact Nat.zero_le a)
  have h3 : ((annPureList cs).map PTree.proofF).sum ≤ (cs.map PTree.count).sum := by
    rw [annPureList_eq_map, List.map_map]
    refine List.sum_le_sum ?_
    intro x hx
    simpa using h x hx
  rw [countList_eq_sum_map]
  omega

theorem proofs_mem_le (cs : List PTree)
    (h : ∀ x ∈ cs, (annPure x).proofF ≤ x.count) (v : Nat)
    (hv : v ∈ ((annPureList cs).filter (fun c => c.solvedF)).map PTree.proofF) :
    v ≤ PTree.countList cs := by
  rcases List.mem_map.mp hv with ⟨y, hy, rfl⟩
  have hy' : y ∈ annPureList cs := List.mem_of_mem_filter hy
  rw [annPureList_eq_map] at hy'
  rcases List.mem_map.mp hy' with ⟨x, hx, rfl⟩
  exact le_trans (h x hx) (count_mem_le cs x hx)

theorem annPure_sizes : ∀ t : PTree, t.count < U64 →
    (annPure t).treeSizeF = t.count ∧ (annPure t).proofF ≤ t.count := by
  refine PTree.inductionOn
    (fun t => t.count < U64 → (annPure t).treeSizeF = t.count ∧ (annPure t).proofF ≤ t.count) ?_
  intro d cs ih hb
  cases cs with
  | nil =>
    constructor
    · simp [annPure, PTree.treeSizeF, PTree.dataF, PTree.count, PTree.countList]
    · by_cases hs : d.solved_ <;>
        simp [annPure, PTree.proofF, PTree.dataF, PTree.count, PTree.countList, hs]
  | cons c rest =>
    have hcount : (PTree.node d (c :: rest)).count = 1 + PTree.countList (c :: rest) := rfl
    have hchildb : ∀ x ∈ c :: rest, x.count < U64 := by
      intro x hx
      have := count_mem_le (c :: rest) x hx
      omega
    have ihts : ∀ x ∈ c :: rest, (annPure x).treeSizeF = x.count := by
      intro x hx
      exact (ih x hx (hchildb x hx)).1
    have ihpf : ∀ x ∈ c :: rest, (annPure x).proofF ≤ x.count := by
      intro x hx
      exact (ih x hx (hchildb x hx)).2
    have hsum : ((annPureList (c :: rest)).map PTree.treeSizeF).sum
        = PTree.countList (c :: rest) := by
      rw [ts_map_eq _ ihts, countList_eq_sum_map]
    have hts : (annPure (.node d (c :: rest))).treeSizeF = (PTree.node d (c :: rest)).count := by
      rw [annPure_treeSizeF_cons, foldl_annStep_fst]
      rw [foldl_stepTs_eq _ 1 (by rw [hsum]; omega)]
      rw [hsum, hcount]
    refine ⟨hts, ?_⟩
    have hone : 1 ≤ (PTree.node d (c :: rest)).count := count_pos _
    have hsm := SMAX_add_one
    have hclt : PTree.countList (c :: rest) < SMAX := by omega
    rw [annPure_proofF_cons, foldl_annStep_snd]
    cases hty : d.type_ with
    | AND =>
      have h0 : (if NType.AND = NType.AND then (0 : Nat) else SMAX) = 0 := by simp
      rw [h0, foldl_stepPt_and]
      have hsle := proofs_sum_le (c :: rest) ihpf
      rw [foldl_add64_eq_sum _ 0 (by omega)]
      simp only [Nat.zero_add]
      by_cases hs : d.solved_ = true
      · rw [if_neg (by intro hA; omega), if_pos hs]
        rw [add64_eq_add _ _ (by omega)]
        omega
      · rw [if_neg (by intro hA; exact hs hA.1), if_neg hs]
        exact Nat.zero_le _
    | OR =>
      have h0 : (if NType.OR = NType.AND then (0 : Nat) else SMAX) = SMAX := by simp
      rw [h0, foldl_stepPt_or]
      rcases foldl_min_eq_init_or_mem
          (((annPureList (c :: rest)).filter (fun c => c.solvedF)).map PTree.proofF) SMAX
        with hmin | hmin
      · rw [hmin]
        by_cases hs : d.solved_ = true
        · rw [if_pos ⟨hs, rfl⟩]
          omega
        · rw [if_neg (by intro hA; exact hs hA.1), if_neg hs]
          exact Nat.zero_le _
      · have hv := proofs_mem_le (c :: rest) ihpf _ hmin
        by_cases hs : d.solved_ = true
        · rw [if_neg (by intro hA; omega), if_pos hs]
          rw [add64_eq_add _ _ (by omega)]
          omega
        · rw [if_neg (by intro hA; exact hs hA.1), if_neg hs]
          exact Nat.zero_le _
    | NONE =>
      have h0 : (if NType.NONE = NType.AND then (0 : Nat) else SMAX) = SMAX := by simp
      rw [h0, foldl_stepPt_none]
      by_cases hs : d.solved_ = true
      · rw [if_pos ⟨hs, rfl⟩]
        omega
      · rw [if_neg (by intro hA; exact hs hA.1), if_neg hs]
        exact Nat.zero_le _

theorem AllPList_iff (P : PTree → Prop) : ∀ cs : List PTree,
    PTree.AllPList P cs ↔ ∀ c ∈ cs, PTree.AllP P c := by
  intro cs
  induction cs with
  | nil => simp [PTree.AllPList]
  | cons c rest ih => simp [PTree.AllPList, ih]

theorem AllP_node_iff (P : PTree → Prop) (t : PTree) :
    PTree.AllP P t ↔ P t ∧ PTree.AllPList P t.childrenL := by
  cases t
  simp [PTree.AllP, PTree.childrenL]

theorem AllP_mono (P Q : PTree → Prop) (hPQ : ∀ n, P n → Q n) :
    ∀ t, PTree.AllP P t → PTree.AllP Q t := by
  refine PTree.inductionOn (fun t => PTree.AllP P t → PTree.AllP Q t) ?_
  intro d cs ih h
  rw [AllP_node_iff] at h ⊢
  refine ⟨hPQ _ h.1, ?_⟩
  rw [AllPList_iff] at h ⊢
  intro c hc
  exact ih c (by simpa [PTree.childrenL] using hc) (h.2 c hc)

theorem typeF_node (d : NData) (cs : List PTree) : (PTree.node d cs).typeF = d.type_ := rfl

theorem solvedF_node (d : NData) (cs : List PTree) : (PTree.node d cs).solvedF = d.solved_ := rfl

theorem AllPList_of_annPure (P : PTree → Prop) (cs : List PTree)
    (h : ∀ c ∈ cs, PTree.AllP P (annPure c)) : PTree.AllPList P (annPureList cs) := by
  rw [AllPList_iff, annPureList_eq_map]
  intro c hc
  rcases List.mem_map.mp hc with ⟨x, hx, rfl⟩
  exact h x hx

theorem annPure_master : ∀ t : PTree, t.count < U64 →
    PTree.AllP (fun n => P_c6 n ∧ P_c2 n ∧ P_c3 n) (annPure t) := by
  refine PTree.inductionOn
    (fun t => t.count < U64 → PTree.AllP (fun n => P_c6 n ∧ P_c2 n ∧ P_c3 n) (annPure t)) ?_
  intro d cs ih hb
  rw [AllP_node_iff, annPure_childrenL]
  have hcc : (PTree.node d cs).count = 1 + PTree.countList cs := rfl
  have hchildb : ∀ x ∈ cs, x.count < U64 := by
    intro x hx
    have h1 := count_mem_le cs x hx
    omega
  refine ⟨?_, AllPList_of_annPure _ cs (fun c hc => ih c hc (hchildb c hc))⟩
  have hsz := annPure_sizes (.node d cs) hb
  have hsm := SMAX_add_one
  have hclt : PTree.countList cs < SMAX := by omega
  have hpfb : ∀ x ∈ cs, (annPure x).proofF ≤ x.count := by
    intro x hx
    exact (annPure_sizes x (hchildb x hx)).2
  have hc6 : P_c6 (annPure (.node d cs)) := by
    constructor
    · rw [annPure_childrenL, hsz.1]
      have hmap : ((annPureList cs).map PTree.treeSizeF).sum = PTree.countList cs := by
        rw [ts_map_eq cs (fun x hx => (annPure_sizes x (hchildb x hx)).1), countList_eq_sum_map]
      rw [hmap, hcc]
    · rw [hsz.1, annPure_count]
  refine ⟨hc6, ?_, ?_⟩
  · -- the AND / sum property
    simp only [P_c2, annPure_childrenL, annPure_typeF, annPure_solvedF, typeF_node, solvedF_node]
    intro hne hAND hsolv hall
    cases cs with
    | nil => simp [annPureList] at hne
    | cons c rest =>
      rw [annPure_proofF_cons, foldl_annStep_snd, hAND]
      rw [show (if NType.AND = NType.AND then (0 : Nat) else SMAX) = 0 by simp]
      rw [foldl_stepPt_and]
      have hfe : (annPureList (c :: rest)).filter (fun x => x.solvedF)
          = annPureList (c :: rest) := by
        rw [List.filter_eq_self]
        intro a ha
        simpa using hall a ha
      rw [hfe]
      have hsle : ((annPureList (c :: rest)).map PTree.proofF).sum
          ≤ PTree.countList (c :: rest) := by
        have h1 := proofs_sum_le (c :: rest) hpfb
        rw [hfe] at h1
        exact h1
      rw [foldl_add64_eq_sum _ 0 (by omega)]
      simp only [Nat.zero_add]
      rw [if_neg (fun hA => absurd hA.2 (by omega)), if_pos hsolv]
      rw [add64_eq_add _ _ (by omega)]
      omega
  · -- the OR / min property
    simp only [P_c3, annPure_childrenL, annPure_typeF, annPure_solvedF, typeF_node, solvedF_node]
    intro hne hOR hsolv hex
    cases cs with
    | nil => simp [annPureList] at hne
    | cons c rest =>
      rw [annPure_proofF_cons, foldl_annStep_snd, hOR]
      rw [show (if NType.OR = NType.AND then (0 : Nat) else SMAX) = SMAX by simp]
      rw [foldl_stepPt_or]
      obtain ⟨c0, hc0mem, hc0s⟩ := hex
      have hc0F : c0.proofF ∈ ((annPureList (c :: rest)).filter (fun x => x.solvedF)).map
          PTree.proofF :=
        List.mem_map_of_mem _ (List.mem_filter.mpr ⟨hc0mem, by simpa using hc0s⟩)
      have hb0 := proofs_mem_le (c :: rest) hpfb _ hc0F
      rcases foldl_min_eq_init_or_mem
          (((annPureList (c :: rest)).filter (fun x => x.solvedF)).map PTree.proofF) SMAX
        with hmin | hmin
      · exfalso
        have hle := foldl_min_le_mem _ SMAX _ hc0F
        omega
      · have hfb := proofs_mem_le (c :: rest) hpfb _ hmin
        rcases List.mem_map.mp hmin with ⟨y, hyF, hy⟩
        have hymem := (List.mem_filter.mp hyF).1
        have hysolv := (List.mem_filter.mp hyF).2
        refine ⟨_, ?_, ⟨y, hymem, by simpa using hysolv, hy⟩, ?_⟩
        · rw [if_neg (fun hA => absurd hA.2 (by omega)), if_pos hsolv]
          rw [add64_eq_add _ _ (by omega)]
          omega
        · intro cc hccmem hccs
          exact foldl_min_le_mem _ SMAX _
            (List.mem_map_of_mem _ (List.mem_filter.mpr ⟨hccmem, by simpa using hccs⟩))

theorem U64_gt_one : 1 < U64 := by norm_num [U64]

theorem annPure_hotfix : ∀ t : PTree, PTree.AllP P_c4 (annPure t) := by
  refine PTree.inductionOn (fun t => PTree.AllP P_c4 (annPure t)) ?_
  intro d cs ih
  rw [AllP_node_iff, annPure_childrenL]
  refine ⟨?_, AllPList_of_annPure _ cs ih⟩
  simp only [P_c4, annPure_childrenL, annPure_solvedF, solvedF_node]
  intro hsolv hnone
  have hsm := SMAX_add_one
  have hu1 := U64_gt_one
  cases cs with
  | nil => simp [annPure, PTree.proofF, PTree.dataF, hsolv]
  | cons c rest =>
    rw [annPure_proofF_cons, foldl_annStep_snd]
    have hfe : (annPureList (c :: rest)).filter (fun x => x.solvedF) = [] := by
      rw [List.filter_eq_nil_iff]
      intro a ha
      simp [hnone a ha]
    cases hty : d.type_ with
    | AND =>
      rw [show (if NType.AND = NType.AND then (0 : Nat) else SMAX) = 0 by simp]
      rw [foldl_stepPt_and, hfe]
      simp only [List.map_nil, List.foldl_nil]
      rw [if_neg (fun hA => absurd hA.2 (by omega)), if_pos hsolv]
      rw [add64_eq_add 0 1 (by omega)]
    | OR =>
      rw [show (if NType.OR = NType.AND then (0 : Nat) else SMAX) = SMAX by simp]
      rw [foldl_stepPt_or, hfe]
      simp only [List.map_nil, List.foldl_nil]
      rw [if_pos ⟨hsolv, trivial⟩]
    | NONE =>
      rw [show (if NType.NONE = NType.AND then (0 : Nat) else SMAX) = SMAX by simp]
      rw [foldl_stepPt_none]
      rw [if_pos ⟨hsolv, rfl⟩]

theorem exInput_parseAll : parseAll exInput = .ok (some 1, exStFinal) := rfl

theorem exInput_load : loadFromString exInput = .ok exTreeAnn := by
  unfold loadFromString
  rw [exInput_parseAll]
  rfl

/-- Claim C1 (counterexample): the claim says tag `B` sets `node_type`
to AND; in the code `addProperty` sets `type_ = Type::OR` for tag `B`,
and the example input's root parses with type OR, not AND. -/
theorem c1_counterexample :
    (sgfAddProperty {} "B".data ["a".data]).map NData.type_ = .ok NType.OR
      ∧ NType.OR ≠ NType.AND
      ∧ (loadFromString exInput).map PTree.typeF = .ok NType.OR := by
  refine ⟨rfl, by decide, ?_⟩
  rw [exInput_load]
  rfl

/-- Claim C1 (amended): tag `B` (exactly one value) sets `node_type` to
OR and tag `W` sets it to AND; the example input parses into a root of
type OR whose two children have type AND. -/
theorem c1_tag_polarity :
    (∀ (d : NData) (v : List Char),
        (sgfAddProperty d "B".data [v]).map NData.type_ = .ok NType.OR)
      ∧ (∀ (d : NData) (v : List Char),
          (sgfAddProperty d "W".data [v]).map NData.type_ = .ok NType.AND)
      ∧ (loadFromString exInput).map (fun t => (t.typeF, t.childrenL.map PTree.typeF))
          = .ok (NType.OR, [NType.AND, NType.AND]) := by
  refine ⟨?_, ?_, ?_⟩
  · intro d v
    simp [sgfAddProperty, Except.map, pure, Except.pure, bind, Except.bind]
  · intro d v
    simp [sgfAddProperty, Except.map, pure, Except.pure, bind, Except.bind]
  · rw [exInput_load]
    rfl

/-- Claim C8: on the example input, five successive `nextNode()` calls
return the four completed nodes in document order (heap pointers 1–4,
created in that order) and then the null sentinel; the final heap records
the expected ids, properties and parent links. -/
theorem c8_pull_order :
    nextNodes 5 (parserInit exInput) = .ok ([some 1, some 2, some 3, some 4, none], exStFinal)
      ∧ exArena.map (fun r => (r.data.id_, r.data.properties_, r.parent_))
          = [ (0, [], none),
              (0, [("B".data, ["a".data])], none),
              (1, [("W".data, ["b".data])], some 1),
              (2, [("B".data, ["c".data])], some 2),
              (3, [("W".data, ["d".data])], some 1) ] := ⟨rfl, rfl⟩

/-- Claim C9: parsing `(;B[a]))` fails with an `SGFError` (grammar
error) whose `[start, end)` span is exactly bytes 7 to 8, the second
closing parenthesis. -/
theorem c9_grammar_error_span :
    loadFromString d9Input = .error (.sgf "Unmatched right parentheses" 7 8)
      ∧ d9Input.get? 7 = some ')' ∧ d9Input.length = 8 := ⟨rfl, rfl, rfl⟩

/-- Claim C10: a second top-level game tree does not produce a
`LexicalError` or an `SGFError`: attaching the second group's node to the
dummy root throws the plain `std::runtime_error` of
`DummyNode::addChild`. -/
theorem c10_second_gametree_runtime_error :
    loadFromString d10Input = .error (.runtimeErr "DummyNode can only have one child") := rfl

/-- Claim C5: on a comment with no `equal_loss` line, `get_property`
returns the empty string, which differs from `"-1"`, so the code sets
`pruned_by_rzone_ = true` and its own
`assert(!pruned_by_rzone_ || solved_)` then fails for an unsolved node:
both the bare `addProperty` call and the whole pipeline on `(;C[hello])`
abort instead of leaving the flag false as the claim states. -/
theorem c5_equal_loss_bug :
    getProp "hello".data "equal_loss = ".data = []
      ∧ sgfAddProperty {} "C".data ["hello".data]
          = .error "assertion failed: !pruned_by_rzone_ || solved_"
      ∧ loadFromString "(;C[hello])".data
          = .error (.assertFail "assertion failed: !pruned_by_rzone_ || solved_") :=
  ⟨rfl, rfl, rfl⟩

theorem s7Input_parseAll : parseAll s7Input = .ok (some 1, s7St) := rfl

theorem s7Input_load : loadFromString s7Input = .ok s7Tree := by
  unfold loadFromString
  rw [s7Input_parseAll]
  rfl

set_option maxRecDepth 40000 in
theorem s7_reparse_parseAll : parseAll (toSgf s7Tree) = .ok (some 1, s7St2) := rfl

set_option maxRecDepth 40000 in
theorem s7_reparse_load : loadFromString (toSgf s7Tree) = .ok s7Tree2 := by
  unfold loadFromString
  rw [s7_reparse_parseAll]
  rfl

set_option maxRecDepth 40000 in
/-- Claim C7: the round-trip is not solved-flag preserving.  The input
`(;C[equal_loss = -1\nsolver_status: WIN\r])` parses with
`solved_ = false` (the status line ends in a bare `\r`, so `get_property`
extracts `WIN\r`), but serializing and re-parsing yields
`solved_ = true`, because the appended metadata places a `\n` right after
that `\r` and `get_property` now strips the `\r` and extracts `WIN`. -/
theorem c7_roundtrip_bug :
    (loadFromString s7Input).map PTree.solvedF = .ok false
      ∧ ((loadFromString s7Input).bind (fun t => loadFromString (toSgf t))).map PTree.solvedF
          = .ok true := by
  constructor
  · rw [s7Input_load]
    rfl
  · rw [s7Input_load]
    simp only [Except.bind]
    rw [s7_reparse_load]
    rfl

/-- Claim C2 (counterexample): an internal AND node all of whose children
are solved but which is itself unsolved receives `proof_tree_size_ = 0`,
not `1 + Σ children.proof_tree_size_` (which would be 2). -/
theorem c2_counterexample :
    annotate t2ce = .ok t2ceAnn
      ∧ t2ceAnn.typeF = .AND
      ∧ t2ceAnn.childrenL.length = 1
      ∧ t2ceAnn.childrenL.map PTree.solvedF = [true]
      ∧ t2ceAnn.proofF = 0
      ∧ 1 + (t2ceAnn.childrenL.map PTree.proofF).sum = 2 :=
  ⟨rfl, rfl, rfl, rfl, rfl, rfl⟩

/-- Claim C2 (amended): after the annotation pass, every internal node of
type AND that is itself solved and all of whose children are solved has
`proof_tree_size_ = 1 + Σ children.proof_tree_size_` (for trees whose
node count fits in `size_t`). -/
theorem c2_and_proof_sum (t t' : PTree) (hb : t.count < U64)
    (h : annotate t = .ok t') : PTree.AllP P_c2 t' := by
  have hp := annotate_eq_pure t
  rw [h] at hp
  injection hp with hp
  subst hp
  exact AllP_mono _ _ (fun n hn => hn.2.1) _ (annPure_master t hb)

theorem c2_and_proof_sum_witness : PTree.AllP P_c2 t2wAnn :=
  c2_and_proof_sum t2w t2wAnn (by decide) rfl

/-- Claim C3 (counterexample): an internal OR node with a solved child
but itself unsolved receives `proof_tree_size_ = 0`, not
`1 + min(solved children's proof_tree_size_)` (which would be 2). -/
theorem c3_counterexample :
    annotate t3ce = .ok t3ceAnn
      ∧ t3ceAnn.typeF = .OR
      ∧ t3ceAnn.childrenL.length = 1
      ∧ t3ceAnn.childrenL.map PTree.solvedF = [true]
      ∧ t3ceAnn.proofF = 0
      ∧ 1 + (t3ceAnn.childrenL.map PTree.proofF).sum = 2 :=
  ⟨rfl, rfl, rfl, rfl, rfl, rfl⟩

/-- Claim C3 (amended): after the annotation pass, every internal node of
type OR that is itself solved and has at least one solved child has
`proof_tree_size_ = 1 + m`, where `m` is the minimum of the solved
children's `proof_tree_size_` values (for trees whose node count fits in
`size_t`). -/
theorem c3_or_proof_min (t t' : PTree) (hb : t.count < U64)
    (h : annotate t = .ok t') : PTree.AllP P_c3 t' := by
  have hp := annotate_eq_pure t
  rw [h] at hp
  injection hp with hp
  subst hp
  exact AllP_mono _ _ (fun n hn => hn.2.2) _ (annPure_master t hb)

theorem c3_or_proof_min_witness : PTree.AllP P_c3 t3wAnn :=
  c3_or_proof_min t3w t3wAnn (by decide) rfl

/-- Claim C4 (counterexample): a solved internal node with no solved
children and with neither `matched_transposition` nor
`pruned_by_search_window` set is processed without any assertion
failure: the annotation returns normally and silently assigns
`proof_tree_size_ = 1`, contradicting the claimed loud failure. -/
theorem c4_counterexample :
    annotate t4ce = .ok t4ceAnn
      ∧ t4ceAnn.solvedF = true
      ∧ t4ceAnn.childrenL.map PTree.solvedF = [false]
      ∧ t4ceAnn.dataF.match_tt_ = false
      ∧ t4ceAnn.dataF.pruned_by_rzone_ = false
      ∧ t4ceAnn.proofF = 1 :=
  ⟨rfl, rfl, rfl, rfl, rfl, rfl⟩

/-- Claim C4 (amended): the annotation pass never aborts — the only
assertion on its path, `assert(node->solved_ == true)`, sits in a branch
whose guard already forces it — and every solved node with no solved
children (provenance flags checked or not) silently receives
`proof_tree_size_ = 1`. -/
theorem c4_hotfix_silent :
    ∀ t : PTree, ∃ t', annotate t = .ok t' ∧ PTree.AllP P_c4 t' :=
  fun t => ⟨annPure t, annotate_eq_pure t, annPure_hotfix t⟩

/-- Claim C6: after the annotation pass, every node's `tree_size_`
equals one plus the sum of its children's `tree_size_` values and equals
the number of nodes of its subtree (for trees whose node count fits in
`size_t`); in particular a leaf has `tree_size_ = 1`. -/
theorem c6_tree_size_correct (t t' : PTree) (hb : t.count < U64)
    (h : annotate t = .ok t') : PTree.AllP P_c6 t' := by
  have hp := annotate_eq_pure t
  rw [h] at hp
  injection hp with hp
  subst hp
  exact AllP_mono _ _ (fun n hn => hn.1) _ (annPure_master t hb)

theorem c6_tree_size_correct_witness : PTree.AllP P_c6 exTreeAnn :=
  c6_tree_size_correct exTree exTreeAnn (by decide) rfl
